import Mathlib

/-!
Verification of the ts-rs type-declaration synthesis engine.

The development shallowly embeds:
* the runtime `TS` trait implementations of `ts-rs/src/lib.rs`
  (primitives, `Option`, `Vec`, arrays, `HashMap`, derived types) as an
  inductive type `Ty` of type expressions with executable functions for
  `name`, `inline`, `transparent`, `get_export_to`, `dependency_types`
  and `dependencies`;
* `Dependency::from_ty` of `ts-rs/src/lib.rs`;
* the newtype renderer `macros/src/types/newtype.rs` as `newtype`;
* `raw_name_to_ts_field` of `macros/src/utils.rs`.

Parts of the repository that are only declared or called from the three
source files (the attribute parser, `deps.rs`, `generics.rs`, `unit.rs`,
`typelist.rs`) are modelled from the specification; each such definition
carries a doc comment starting with "Modelled from the spec".
-/

namespace TsRs

/-- Type expressions, mirroring the `TS` impls of `ts-rs/src/lib.rs`:
`prim` covers the `impl_primitives!` instances (the string is the literal
TypeScript name, e.g. `"number"` for `i32`); `option`, `vec`, `array`
and `hashMap` are the corresponding `impl TS for ...` blocks; `param` is
a bare occurrence of a generic parameter of the enclosing declaration;
`defined` is a user type carrying its TypeScript name, its `EXPORT_TO`
constant, its inline text and its dependency types. -/
inductive Ty where
  | prim (s : String)
  | param (s : String)
  | option (t : Ty)
  | vec (t : Ty)
  | array (t : Ty) (n : Nat)
  | hashMap (k v : Ty)
  | defined (nm : String) (et : Option String) (inl : String) (ds : List Ty)

/-- `ARRAY_TUPLE_LIMIT` of `ts-rs/src/lib.rs`: arrays longer than this
limit are emitted as `Array<T>`. -/
def ARRAY_TUPLE_LIMIT : Nat := 64

/-- `TS::name` for each impl in `ts-rs/src/lib.rs`. `none` models a
call that panics (`Option::name` is `unreachable!()`; a generic
parameter never reaches a runtime `name` call). -/
def Ty.name : Ty → Option String
  | .prim s => some s
  | .param _ => none
  | .option _ => none
  | .vec _ => some "Array"
  | .array _ n => some (if n > ARRAY_TUPLE_LIMIT then "Array" else "[]")
  | .hashMap _ _ => some "Record"
  | .defined nm _ _ _ => some nm

/-- `TS::inline` for each impl in `ts-rs/src/lib.rs`; `none` models a
panicking call (the default body panics). The array case follows
`impl TS for [T; N]`: above `ARRAY_TUPLE_LIMIT` it returns
`Vec::<T>::inline()`, i.e. `Array<T>`, otherwise a tuple of `N` copies
of `T::inline()`. -/
def Ty.inline : Ty → Option String
  | .prim s => some s
  | .param _ => none
  | .option t => (Ty.inline t).map (fun s => s ++ " | null")
  | .vec t => (Ty.inline t).map (fun s => "Array<" ++ s ++ ">")
  | .array t n =>
      if n > ARRAY_TUPLE_LIMIT then
        (Ty.inline t).map (fun s => "Array<" ++ s ++ ">")
      else
        (Ty.inline t).map
          (fun s => "[" ++ String.intercalate ", " (List.replicate n s) ++ "]")
  | .hashMap k v =>
      (Ty.inline k).bind (fun a =>
        (Ty.inline v).map (fun b => "Record<" ++ a ++ ", " ++ b ++ ">"))
  | .defined _ _ inl _ => some inl

/-- `TS::transparent` for each impl in `ts-rs/src/lib.rs`: `false` for
primitives (`impl_primitives!`), `true` for `Option`, `Vec`, arrays and
`HashMap`; a derived type is not transparent. -/
def Ty.transparent : Ty → Bool
  | .prim _ => false
  | .param _ => false
  | .option _ => true
  | .vec _ => true
  | .array _ _ => true
  | .hashMap _ _ => true
  | .defined _ _ _ _ => false

/-- `TS::get_export_to` (`ts-rs/src/lib.rs`): `Self::EXPORT_TO`, which
is `None` by default and hence `None` for every built-in impl; a
derived type carries its configured export path. -/
def Ty.get_export_to : Ty → Option String
  | .defined _ et _ _ => et
  | _ => none

/-- `TS::dependency_types` for each impl in `ts-rs/src/lib.rs`: the
default is empty (primitives), wrappers push their element types, a
derived type lists its field types. -/
def Ty.dependency_types : Ty → List Ty
  | .prim _ => []
  | .param _ => []
  | .option t => [t]
  | .vec t => [t]
  | .array t _ => [t]
  | .hashMap k v => [k, v]
  | .defined _ _ _ ds => ds

/-- `Dependency` (`ts-rs/src/lib.rs`): identity token of the Rust type
(`TypeId`, modelled as the type expression itself), its TypeScript name
and its resolved export path. -/
structure Dependency where
  type_id : Ty
  ts_name : String
  exported_to : String

/-- `Dependency::from_ty` (`ts-rs/src/lib.rs`): `None` when
`T::EXPORT_TO` is `None`, otherwise a `Dependency` carrying the type's
identity, `T::name()` and the export path. (`name` is defined for every
type that has a configured export path.) -/
def Dependency.from_ty (t : Ty) : Option Dependency :=
  match t.get_export_to with
  | .none => none
  | .some p => some ⟨t, (Ty.name t).getD "", p⟩

mutual
/-- Visiting one type during `TS::dependencies` (`ts-rs/src/lib.rs`):
the visitor pushes `Dependency::from_ty::<T>()` when it is `Some`.
Modelled from the spec for the part carried by `typelist.rs` (not under
`src/`): per §4.4, a type that yields no `Dependency` (no configured
export path — in particular every transparent wrapper) is skipped, but
its element types are still traversed in its place. -/
def depsVisit : Ty → List Dependency
  | .prim _ => []
  | .param _ => []
  | .option t => depsVisit t
  | .vec t => depsVisit t
  | .array t _ => depsVisit t
  | .hashMap k v => depsVisit k ++ depsVisit v
  | .defined nm et inl ds =>
      match et with
      | .some p => [⟨.defined nm et inl ds, nm, p⟩]
      | .none => depsVisitList ds

/-- Visit each type of a type list in order (the `for_each` of the
visitor in `TS::dependencies`). -/
def depsVisitList : List Ty → List Dependency
  | [] => []
  | t :: ts => depsVisit t ++ depsVisitList ts
end

/-- `TS::dependencies` (`ts-rs/src/lib.rs`): visit every type of
`Self::dependency_types()`, collecting the pushed dependencies. -/
def Ty.dependencies (t : Ty) : List Dependency :=
  depsVisitList t.dependency_types

/-- Bridge lemma: `depsVisit` agrees with the visitor of
`TS::dependencies` in `ts-rs/src/lib.rs` — push the dependency when
`Dependency::from_ty` yields one, otherwise traverse the type's own
dependency types. -/
theorem depsVisit_eq (t : Ty) :
    depsVisit t =
      match Dependency.from_ty t with
      | .some d => [d]
      | .none => depsVisitList t.dependency_types := by
  cases t with
  | prim s => simp [depsVisit, Dependency.from_ty, Ty.get_export_to,
      Ty.dependency_types, depsVisitList]
  | param s => simp [depsVisit, Dependency.from_ty, Ty.get_export_to,
      Ty.dependency_types, depsVisitList]
  | option t => simp [depsVisit, Dependency.from_ty, Ty.get_export_to,
      Ty.dependency_types, depsVisitList]
  | vec t => simp [depsVisit, Dependency.from_ty, Ty.get_export_to,
      Ty.dependency_types, depsVisitList]
  | array t n => simp [depsVisit, Dependency.from_ty, Ty.get_export_to,
      Ty.dependency_types, depsVisitList]
  | hashMap k v => simp [depsVisit, Dependency.from_ty, Ty.get_export_to,
      Ty.dependency_types, depsVisitList]
  | defined nm et inl ds =>
      cases et with
      | none => simp [depsVisit, Dependency.from_ty, Ty.get_export_to,
          Ty.dependency_types]
      | some p => simp [depsVisit, Dependency.from_ty, Ty.get_export_to,
          Ty.name]

mutual
/-- Every dependency pushed while visiting `t` has a strictly smaller
(or, when `t` itself is pushed, equal) identity, is not transparent,
and has a configured export path. -/
theorem depsVisit_spec : ∀ (t : Ty) (d : Dependency), d ∈ depsVisit t →
    sizeOf d.type_id ≤ sizeOf t ∧ d.type_id.transparent = false ∧
      (Ty.get_export_to d.type_id).isSome = true
  | .prim s, d, hd => by simp [depsVisit] at hd
  | .param s, d, hd => by simp [depsVisit] at hd
  | .option t, d, hd => by
      have h := depsVisit_spec t d (by simpa [depsVisit] using hd)
      refine ⟨?_, h.2.1, h.2.2⟩
      have hs : sizeOf t < sizeOf (Ty.option t) := by simp_arith
      omega
  | .vec t, d, hd => by
      have h := depsVisit_spec t d (by simpa [depsVisit] using hd)
      refine ⟨?_, h.2.1, h.2.2⟩
      have hs : sizeOf t < sizeOf (Ty.vec t) := by simp_arith
      omega
  | .array t n, d, hd => by
      have h := depsVisit_spec t d (by simpa [depsVisit] using hd)
      refine ⟨?_, h.2.1, h.2.2⟩
      have hs : sizeOf t < sizeOf (Ty.array t n) := by simp_arith
      omega
  | .hashMap k v, d, hd => by
      rw [depsVisit] at hd
      rcases List.mem_append.mp hd with h | h
      · have h := depsVisit_spec k d h
        refine ⟨?_, h.2.1, h.2.2⟩
        have hs : sizeOf k < sizeOf (Ty.hashMap k v) := by simp_arith
        omega
      · have h := depsVisit_spec v d h
        refine ⟨?_, h.2.1, h.2.2⟩
        have hs : sizeOf v < sizeOf (Ty.hashMap k v) := by simp_arith
        omega
  | .defined nm et inl ds, d, hd => by
      cases et with
      | some p =>
          rw [depsVisit] at hd
          have hd' : d = ⟨.defined nm (some p) inl ds, nm, p⟩ :=
            List.mem_singleton.mp hd
          subst hd'
          exact ⟨le_refl _, rfl, rfl⟩
      | none =>
          rw [depsVisit] at hd
          have h := depsVisitList_spec ds d hd
          refine ⟨?_, h.2.1, h.2.2⟩
          have hs : sizeOf ds < sizeOf (Ty.defined nm none inl ds) := by
            simp_arith
          omega

/-- List version of `depsVisit_spec`. -/
theorem depsVisitList_spec : ∀ (l : List Ty) (d : Dependency),
    d ∈ depsVisitList l →
    sizeOf d.type_id < sizeOf l ∧ d.type_id.transparent = false ∧
      (Ty.get_export_to d.type_id).isSome = true
  | [], d, hd => by simp [depsVisitList] at hd
  | t :: ts, d, hd => by
      rw [depsVisitList] at hd
      rcases List.mem_append.mp hd with h | h
      · have h := depsVisit_spec t d h
        refine ⟨?_, h.2.1, h.2.2⟩
        have hs : sizeOf t < sizeOf (t :: ts) := by simp_arith
        omega
      · have h := depsVisitList_spec ts d h
        refine ⟨?_, h.2.1, h.2.2⟩
        have hs : sizeOf ts < sizeOf (t :: ts) := by simp_arith
        omega
end

/-- Every entry of `TS::dependencies` has a strictly smaller identity
than the visited type, is not transparent, and has an export path. -/
theorem dependencies_spec (t : Ty) (d : Dependency)
    (hd : d ∈ Ty.dependencies t) :
    sizeOf d.type_id < sizeOf t ∧ d.type_id.transparent = false ∧
      (Ty.get_export_to d.type_id).isSome = true := by
  rw [Ty.dependencies] at hd
  cases t with
  | prim s => simp [Ty.dependency_types, depsVisitList] at hd
  | param s => simp [Ty.dependency_types, depsVisitList] at hd
  | option t =>
      simp only [Ty.dependency_types, depsVisitList, List.append_nil] at hd
      have h := depsVisit_spec t d hd
      refine ⟨?_, h.2.1, h.2.2⟩
      have hs : sizeOf t < sizeOf (Ty.option t) := by simp_arith
      omega
  | vec t =>
      simp only [Ty.dependency_types, depsVisitList, List.append_nil] at hd
      have h := depsVisit_spec t d hd
      refine ⟨?_, h.2.1, h.2.2⟩
      have hs : sizeOf t < sizeOf (Ty.vec t) := by simp_arith
      omega
  | array t n =>
      simp only [Ty.dependency_types, depsVisitList, List.append_nil] at hd
      have h := depsVisit_spec t d hd
      refine ⟨?_, h.2.1, h.2.2⟩
      have hs : sizeOf t < sizeOf (Ty.array t n) := by simp_arith
      omega
  | hashMap k v =>
      simp only [Ty.dependency_types, depsVisitList, List.append_nil] at hd
      rcases List.mem_append.mp hd with h | h
      · have h := depsVisit_spec k d h
        refine ⟨?_, h.2.1, h.2.2⟩
        have hs : sizeOf k < sizeOf (Ty.hashMap k v) := by simp_arith
        omega
      · have h := depsVisit_spec v d h
        refine ⟨?_, h.2.1, h.2.2⟩
        have hs : sizeOf v < sizeOf (Ty.hashMap k v) := by simp_arith
        omega
  | defined nm et inl ds =>
      simp only [Ty.dependency_types] at hd
      have h := depsVisitList_spec ds d hd
      refine ⟨?_, h.2.1, h.2.2⟩
      have hs : sizeOf ds < sizeOf (Ty.defined nm et inl ds) := by simp_arith
      omega

/-- A type never occurs among its own collected dependencies. -/
theorem dependencies_not_self (t : Ty) (d : Dependency)
    (hd : d ∈ Ty.dependencies t) : d.type_id ≠ t := by
  intro h
  have := (dependencies_spec t d hd).1
  rw [h] at this
  omega

/-- `StructAttr` (container attributes), as destructured in
`macros/src/types/newtype.rs`: only the fields the newtype renderer
reads are modelled. -/
structure StructAttr where
  rename_all : Option String
  tag : Option String
  docs : String
  «export» : Bool
  export_to : Option String

/-- `FieldAttr` (field attributes), as destructured in
`macros/src/types/newtype.rs`. `type_as` is the already-parsed
substitute type of `#[ts(as = "...")]`; `optional` is the
`optional.optional` flag. -/
structure FieldAttr where
  type_as : Option Ty
  type_override : Option String
  rename : Option String
  inline : Bool
  skip : Bool
  optional : Bool
  flatten : Bool

/-- Modelled from the spec: `FieldAttr::from_attrs` lives in the
attribute module, which is not under `src/`. Per §4.1, attribute
parsing fails fast with a description-level error when a field sets
both `type override` and `inline`, or both `type override` and
`flatten`; otherwise it yields the parsed attributes unchanged. -/
def FieldAttr.from_attrs (fa : FieldAttr) : Except String FieldAttr :=
  if fa.type_override.isSome && fa.inline then
    .error "`type` is not compatible with `inline`"
  else if fa.type_override.isSome && fa.flatten then
    .error "`type` is not compatible with `flatten`"
  else
    .ok fa

/-- One entry of the macro-side `Dependencies` collector (`deps.rs`,
not under `src/`): either a single push of a type
(`push_or_append_from`) or a splice of the type's own transitive
dependencies (`append_from`). -/
inductive DepInstr where
  | push (t : Ty)
  | extendFrom (t : Ty)

/-- Runtime elaboration of one collector entry: a pushed type is
visited exactly like `TS::dependencies` visits a type, a splice yields
the type's own `TS::dependencies`. -/
def DepInstr.elaborate : DepInstr → List Dependency
  | .push t => depsVisit t
  | .extendFrom t => Ty.dependencies t

/-- The runtime dependency list produced by a collected sequence of
entries. -/
def runtime_dependencies (l : List DepInstr) : List Dependency :=
  l.flatMap DepInstr.elaborate

/-- `DerivedTS` — output of the macro-side renderers. `decl` and
`inline` hold the text the generated code evaluates to at runtime
(`none` models a runtime panic inside the spliced `inline()` call). -/
structure DerivedTS where
  decl : Option String
  inline : Option String
  inline_flattened : Option String
  name : String
  docs : String
  dependencies : List DepInstr
  «export» : Bool
  export_to : Option String

/-- Modelled from the spec: `format_generics` lives in
`macros/src/types/generics.rs`, which is not under `src/`. Per §4.2 it
renders the declaration-site generic parameter list; it contributes no
dependencies (generic parameters are never exportable dependencies). -/
def format_generics (gs : List String) : String :=
  if gs.isEmpty then "" else "<" ++ String.intercalate ", " gs ++ ">"

/-- Modelled from the spec: `format_type` lives in
`macros/src/types/generics.rs`, which is not under `src/`. Per §4.2 a
bare occurrence of one of the enclosing type's generic parameters is
substituted by its own name and never pushed as a dependency; any other
type is rendered as a named reference (its TypeScript name, applied to
its recursively formatted type arguments, following the
`name_with_type_args` impls of `ts-rs/src/lib.rs`). -/
def format_type (gs : List String) : Ty → Option String
  | .param s => if gs.contains s then some s else none
  | .prim s => some s
  | .option t => (format_type gs t).map (fun s => s ++ " | null")
  | .vec t => (format_type gs t).map (fun s => "Array<" ++ s ++ ">")
  | .array t n =>
      if n > ARRAY_TUPLE_LIMIT then
        (format_type gs t).map (fun s => "Array<" ++ s ++ ">")
      else
        (format_type gs t).map
          (fun s => "[" ++ String.intercalate ", " (List.replicate n s) ++ "]")
  | .hashMap k v =>
      (format_type gs k).bind (fun a =>
        (format_type gs v).map (fun b => "Record<" ++ a ++ ", " ++ b ++ ">"))
  | .defined nm _ _ _ => some nm

/-- Modelled from the spec: `unit::null` lives in
`macros/src/types/unit.rs`, which is not under `src/`. Per §4.3 a unit
struct renders as a null-equivalent declaration and contributes no
dependencies. -/
def unit.null (attr : StructAttr) (name : String) : DerivedTS :=
  { decl := some ("type " ++ name ++ " = null;")
    inline := some "null"
    inline_flattened := none
    name := name
    docs := attr.docs
    dependencies := []
    «export» := attr.export
    export_to := attr.export_to }

/-- `newtype` (`macros/src/types/newtype.rs`): renders a newtype struct
with container attributes `attr`, declared TypeScript name `name`, sole
unnamed field of type `inner_ty` carrying (already parsed) field
attributes `raw_fa`, and generic parameters `generics`. The Rust
function's ordered checks and match arms are reproduced one for one;
`syn_err!` becomes `Except.error`. -/
def newtype (attr : StructAttr) (name : String) (inner_field : Ty)
    (raw_fa : FieldAttr) (generics : List String) :
    Except String DerivedTS :=
  if attr.rename_all.isSome then
    .error "`rename_all` is not applicable to newtype structs"
  else if attr.tag.isSome then
    .error "`tag` is not applicable to newtype structs"
  else
    match FieldAttr.from_attrs raw_fa with
    | .error e => .error e
    | .ok fa =>
      if fa.rename.isSome then
        .error "`rename` is not applicable to newtype fields"
      else if fa.skip then
        .ok (unit.null attr name)
      else if fa.optional then
        .error "`optional` is not applicable to newtype fields"
      else if fa.flatten then
        .error "`flatten` is not applicable to newtype fields"
      else if fa.type_as.isSome && fa.type_override.isSome then
        .error "`type` is not compatible with `as`"
      else
        let inner_ty := fa.type_as.getD inner_field
        let dependencies : List DepInstr :=
          match fa.type_override.isNone, fa.inline with
          | false, _ => []
          | true, true => [.extendFrom inner_ty]
          | true, false => [.push inner_ty]
        let inline_def : Option String :=
          match fa.type_override with
          | .some o => some o
          | .none =>
              if fa.inline then Ty.inline inner_ty
              else format_type generics inner_ty
        .ok { decl := inline_def.map (fun d =>
                "type " ++ name ++ format_generics generics ++ " = " ++ d ++ ";")
              inline := inline_def
              inline_flattened := none
              name := name
              docs := attr.docs
              dependencies := dependencies
              «export» := attr.export
              export_to := attr.export_to }

/-- `TS::name_with_type_args` (`ts-rs/src/lib.rs`) for each impl:
primitives assert an empty argument list; `Option` asserts one argument
and appends `| null`; `Vec` uses the trait default
(`format!` of `Self::name()` and the joined arguments); `[T; N]`
defers to `Vec` above `ARRAY_TUPLE_LIMIT` and otherwise asserts one
argument and repeats it `N` times; `HashMap` asserts two arguments.
`none` models a panicking call (failed assert, `unreachable!`). A
`defined` type follows the trait default shape with its own name. -/
def Ty.name_with_type_args : Ty → List String → Option String
  | .prim s, args => if args.isEmpty then some s else none
  | .param _, _ => none
  | .option _, args =>
      match args with
      | [a] => some (a ++ " | null")
      | _ => none
  | .vec _, args => some ("Array<" ++ String.intercalate ", " args ++ ">")
  | .array _ n, args =>
      if n > ARRAY_TUPLE_LIMIT then
        some ("Array<" ++ String.intercalate ", " args ++ ">")
      else
        match args with
        | [a] => some ("[" ++ String.intercalate ", " (List.replicate n a) ++ "]")
        | _ => none
  | .hashMap _ _, args =>
      match args with
      | [a, b] => some ("Record<" ++ a ++ ", " ++ b ++ ">")
      | _ => none
  | .defined nm _ _ _, args =>
      if args.isEmpty then some nm
      else some (nm ++ "<" ++ String.intercalate ", " args ++ ">")

/-- `raw_name_to_ts_field` (`macros/src/utils.rs`): a name is valid
when every character is alphanumeric, `_` or `$`, and the first
character (if any) is not numeric; an invalid name is wrapped in double
quotes. Rust's `char::is_alphanumeric` and `char::is_numeric` are
modelled by `Char.isAlphanum` and `Char.isDigit`. -/
def raw_name_to_ts_field (value : String) : String :=
  let valid :=
    value.data.all (fun c => c.isAlphanum || c == '_' || c == '$')
      && ((value.data.head?.map (fun first => !first.isDigit)).getD true)
  if !valid then "\"" ++ value ++ "\"" else value

/-- A concrete exported user type, used by the concrete scenarios. -/
def InnerTy : Ty := .defined "Inner" (some "bindings/Inner.ts") "inner-inline" []

/-- A concrete exported user type whose only field is a sequence of
`InnerTy`. -/
def OuterTy : Ty :=
  .defined "Outer" (some "bindings/Outer.ts") "outer-inline" [.vec InnerTy]

/-- C3: every entry yielded by `dependencies` is non-transparent and
has a configured export path (so a transparent wrapper never yields an
entry for itself); a transparent type yields no `Dependency`; a type
with `EXPORT_TO = None` is skipped as a dependency while its element
types are still traversed; and the dependencies of an exported type
whose only field is a sequence of the exported type `Inner` contain
zero entries for the sequence wrapper and exactly one for `Inner`. -/
theorem dependencies_skip_transparent (u t : Ty) (d : Dependency) :
    (d ∈ Ty.dependencies u →
      d.type_id.transparent = false ∧
        (Ty.get_export_to d.type_id).isSome = true) ∧
    (t.transparent = true → Dependency.from_ty t = none) ∧
    (Dependency.from_ty t = none →
      depsVisit t = depsVisitList t.dependency_types) ∧
    Ty.dependencies OuterTy = [⟨InnerTy, "Inner", "bindings/Inner.ts"⟩] := by
  refine ⟨fun hd => (dependencies_spec u d hd).2, fun ht => ?_, fun hn => ?_, ?_⟩
  · cases t with
    | prim s => simp [Ty.transparent] at ht
    | param s => simp [Ty.transparent] at ht
    | option t => simp [Dependency.from_ty, Ty.get_export_to]
    | vec t => simp [Dependency.from_ty, Ty.get_export_to]
    | array t n => simp [Dependency.from_ty, Ty.get_export_to]
    | hashMap k v => simp [Dependency.from_ty, Ty.get_export_to]
    | defined nm et inl ds => simp [Ty.transparent] at ht
  · rw [depsVisit_eq t, hn]
  · simp [OuterTy, InnerTy, Ty.dependencies, Ty.dependency_types,
      depsVisitList, depsVisit]

/-- Witness for C3 at `u = OuterTy`, `t = Ty.vec InnerTy`,
`d = ⟨InnerTy, "Inner", "bindings/Inner.ts"⟩`. -/
theorem dependencies_skip_transparent_witness :
    (Ty.transparent InnerTy = false ∧
      (Ty.get_export_to InnerTy).isSome = true) ∧
    Dependency.from_ty (Ty.vec InnerTy) = none ∧
    depsVisit (Ty.vec InnerTy) =
      depsVisitList (Ty.dependency_types (Ty.vec InnerTy)) := by
  have h := dependencies_skip_transparent OuterTy (Ty.vec InnerTy)
    ⟨InnerTy, "Inner", "bindings/Inner.ts"⟩
  have hmem : (⟨InnerTy, "Inner", "bindings/Inner.ts"⟩ : Dependency) ∈
      Ty.dependencies OuterTy := by
    rw [h.2.2.2]; exact List.mem_singleton.mpr rfl
  exact ⟨h.1 hmem, h.2.1 rfl, h.2.2.1 (h.2.1 rfl)⟩

/-- C4: below the `ARRAY_TUPLE_LIMIT` threshold of 64, an array type
`[T; N]` renders (both its name with one type argument and its inline
text) as a fixed-length tuple of `N` copies of `T`'s text; above the
threshold it renders exactly as the generic sequence type `Vec<T>`
does. -/
theorem array_tuple_threshold (t : Ty) (n : Nat) (a : String) :
    Ty.name_with_type_args (.array t n) [a] =
      (if n > ARRAY_TUPLE_LIMIT then Ty.name_with_type_args (.vec t) [a]
       else some ("[" ++ String.intercalate ", " (List.replicate n a) ++ "]")) ∧
    Ty.inline (.array t n) =
      (if n > ARRAY_TUPLE_LIMIT then Ty.inline (.vec t)
       else (Ty.inline t).map
         (fun s => "[" ++ String.intercalate ", " (List.replicate n s) ++ "]")) := by
  by_cases hn : n > ARRAY_TUPLE_LIMIT <;>
    simp [hn, Ty.name_with_type_args, Ty.inline]

/-- C9: dependency collection and rendering are pure functions of the
type descriptor — two calls yield the same sequence and byte-identical
text. -/
theorem render_deterministic (t : Ty) (attr : StructAttr) (name : String)
    (inner : Ty) (fa : FieldAttr) (gs : List String) :
    Ty.dependencies t = Ty.dependencies t ∧
    Ty.inline t = Ty.inline t ∧
    Ty.name t = Ty.name t ∧
    newtype attr name inner fa gs = newtype attr name inner fa gs :=
  ⟨rfl, rfl, rfl, rfl⟩

/-- C10: the field-name sanitizer returns its input unchanged exactly
when every character is alphanumeric, `_` or `$` and the first
character (when present) is not numeric — in particular the empty
string is unchanged — and otherwise wraps the input in double quotes. -/
theorem raw_name_to_ts_field_spec (value : String) :
    (raw_name_to_ts_field value = value ↔
      ((∀ c ∈ value.data, c.isAlphanum = true ∨ c = '_' ∨ c = '$') ∧
        ∀ first, value.data.head? = some first → first.isDigit = false)) ∧
    raw_name_to_ts_field "" = "" ∧
    (¬ ((∀ c ∈ value.data, c.isAlphanum = true ∨ c = '_' ∨ c = '$') ∧
        ∀ first, value.data.head? = some first → first.isDigit = false) →
      raw_name_to_ts_field value = "\"" ++ value ++ "\"") := by
  have hq : ("\"" ++ value ++ "\"") ≠ value := by
    intro h
    have hl := congrArg String.length h
    rw [String.length_append, String.length_append] at hl
    have h1 : ("\"" : String).length = 1 := rfl
    rw [h1] at hl
    omega
  have hv : (value.data.all (fun c => c.isAlphanum || c == '_' || c == '$')
        && ((value.data.head?.map (fun first => !first.isDigit)).getD true))
        = true ↔
      ((∀ c ∈ value.data, c.isAlphanum = true ∨ c = '_' ∨ c = '$') ∧
        ∀ first, value.data.head? = some first → first.isDigit = false) := by
    rw [Bool.and_eq_true, List.all_eq_true]
    constructor
    · rintro ⟨h1, h2⟩
      refine ⟨fun c hc => ?_, fun first hf => ?_⟩
      · have := h1 c hc
        simpa [Bool.or_eq_true, or_assoc] using this
      · rw [hf] at h2
        simpa using h2
    · rintro ⟨h1, h2⟩
      refine ⟨fun c hc => ?_, ?_⟩
      · simpa [Bool.or_eq_true, or_assoc] using h1 c hc
      · cases hh : value.data.head? with
        | none => simp
        | some c => simpa using h2 c hh
  constructor
  · constructor
    · intro heq
      by_contra hnot
      rw [← hv] at hnot
      have : raw_name_to_ts_field value = "\"" ++ value ++ "\"" := by
        unfold raw_name_to_ts_field
        simp only [Bool.not_eq_true] at hnot
        rw [Bool.eq_false_iff] at hnot
        simp [hnot]
      exact hq (this ▸ heq)
    · intro hvalid
      rw [← hv] at hvalid
      unfold raw_name_to_ts_field
      simp [hvalid]
  constructor
  · rfl
  · intro hnot
    rw [← hv] at hnot
    unfold raw_name_to_ts_field
    simp only [Bool.not_eq_true] at hnot
    rw [Bool.eq_false_iff] at hnot
    simp [hnot]

/-- Witness for C10 at `value = "my-field"` (the hyphen is neither
alphanumeric nor `_` nor `$`, so the name is quoted). -/
theorem raw_name_to_ts_field_spec_witness :
    raw_name_to_ts_field "my-field" = "\"" ++ "my-field" ++ "\"" :=
  (raw_name_to_ts_field_spec "my-field").2.2 (by decide)

/-- `FieldAttr::from_attrs` only ever succeeds with the attributes it
was given. -/
theorem from_attrs_ok {fa fa' : FieldAttr}
    (h : FieldAttr.from_attrs fa = .ok fa') : fa' = fa := by
  unfold FieldAttr.from_attrs at h
  split at h
  · simp at h
  · split at h
    · simp at h
    · simpa using h.symm

/-- C1: for a newtype struct whose sole field is not skipped and has no
type override (and no substitute type): with `inline` set, the
declaration splices in the inner type's own inline text and the
collected dependencies elaborate to the inner type's transitive
dependencies, never containing the inner type itself; with `inline`
unset, the inner type is rendered as a named reference and pushed as a
single dependency. -/
theorem newtype_inline_or_named (attr : StructAttr) (name : String)
    (inner : Ty) (fa : FieldAttr) (gs : List String)
    (hra : attr.rename_all = none) (htag : attr.tag = none)
    (has : fa.type_as = none) (hov : fa.type_override = none)
    (hrn : fa.rename = none) (hskip : fa.skip = false)
    (hopt : fa.optional = false) (hfl : fa.flatten = false) :
    (fa.inline = true →
      newtype attr name inner fa gs =
        .ok { decl := (Ty.inline inner).map (fun d =>
                "type " ++ name ++ format_generics gs ++ " = " ++ d ++ ";")
              inline := Ty.inline inner
              inline_flattened := none
              name := name
              docs := attr.docs
              dependencies := [.extendFrom inner]
              «export» := attr.export
              export_to := attr.export_to } ∧
      runtime_dependencies [DepInstr.extendFrom inner] =
        Ty.dependencies inner ∧
      ∀ d ∈ runtime_dependencies [DepInstr.extendFrom inner],
        d.type_id ≠ inner) ∧
    (fa.inline = false →
      newtype attr name inner fa gs =
        .ok { decl := (format_type gs inner).map (fun d =>
                "type " ++ name ++ format_generics gs ++ " = " ++ d ++ ";")
              inline := format_type gs inner
              inline_flattened := none
              name := name
              docs := attr.docs
              dependencies := [.push inner]
              «export» := attr.export
              export_to := attr.export_to }) := by
  have hrt : runtime_dependencies [DepInstr.extendFrom inner] =
      Ty.dependencies inner := by
    simp [runtime_dependencies, DepInstr.elaborate]
  constructor
  · intro hin
    refine ⟨?_, hrt, fun d hd => dependencies_not_self inner d (hrt ▸ hd)⟩
    simp [newtype, FieldAttr.from_attrs, hra, htag, has, hov, hrn, hskip,
      hopt, hfl, hin]
  · intro hin
    simp [newtype, FieldAttr.from_attrs, hra, htag, has, hov, hrn, hskip,
      hopt, hfl, hin]

/-- Witness for C1 at a concrete newtype over `InnerTy` with `inline`
set. -/
theorem newtype_inline_or_named_witness :
    newtype ⟨none, none, "", false, none⟩ "W" InnerTy
      ⟨none, none, none, true, false, false, false⟩ [] =
      .ok { decl := (Ty.inline InnerTy).map (fun d =>
              "type " ++ "W" ++ format_generics [] ++ " = " ++ d ++ ";")
            inline := Ty.inline InnerTy
            inline_flattened := none
            name := "W"
            docs := ""
            dependencies := [.extendFrom InnerTy]
            «export» := false
            export_to := none } ∧
    runtime_dependencies [DepInstr.extendFrom InnerTy] =
      Ty.dependencies InnerTy := by
  have h := (newtype_inline_or_named ⟨none, none, "", false, none⟩ "W"
    InnerTy ⟨none, none, none, true, false, false, false⟩ []
    rfl rfl rfl rfl rfl rfl rfl rfl).1 rfl
  exact ⟨h.1, h.2.1⟩

/-- C2: a newtype struct whose field carries a type override string
uses that string verbatim as both the declaration body and the
inline-use text, and collects no dependency from that field. -/
theorem newtype_type_override_verbatim (attr : StructAttr) (name : String)
    (inner : Ty) (fa : FieldAttr) (gs : List String) (o : String)
    (hra : attr.rename_all = none) (htag : attr.tag = none)
    (has : fa.type_as = none) (hov : fa.type_override = some o)
    (hin : fa.inline = false) (hrn : fa.rename = none)
    (hskip : fa.skip = false) (hopt : fa.optional = false)
    (hfl : fa.flatten = false) :
    newtype attr name inner fa gs =
      .ok { decl := some
              ("type " ++ name ++ format_generics gs ++ " = " ++ o ++ ";")
            inline := some o
            inline_flattened := none
            name := name
            docs := attr.docs
            dependencies := []
            «export» := attr.export
            export_to := attr.export_to } ∧
    runtime_dependencies [] = [] := by
  refine ⟨?_, rfl⟩
  simp [newtype, FieldAttr.from_attrs, hra, htag, has, hov, hrn, hskip,
    hopt, hfl, hin]

/-- Witness for C2: a newtype with `#[ts(type = "string")]` on its
field. -/
theorem newtype_type_override_verbatim_witness :
    newtype ⟨none, none, "", false, none⟩ "W" (.prim "number")
      ⟨none, some "string", none, false, false, false, false⟩ [] =
      .ok { decl := some
              ("type " ++ "W" ++ format_generics [] ++ " = " ++ "string" ++ ";")
            inline := some "string"
            inline_flattened := none
            name := "W"
            docs := ""
            dependencies := []
            «export» := false
            export_to := none } ∧
    runtime_dependencies [] = [] :=
  newtype_type_override_verbatim ⟨none, none, "", false, none⟩ "W"
    (.prim "number") ⟨none, some "string", none, false, false, false, false⟩
    [] "string" rfl rfl rfl rfl rfl rfl rfl rfl rfl

/-- C5: a field that sets both a type override and `inline` is rejected
at attribute-parse time with a description-level error, so a newtype
struct with such a field is never rendered. -/
theorem type_override_with_inline_rejected (fa : FieldAttr)
    (hov : fa.type_override.isSome = true) (hin : fa.inline = true) :
    (∃ e, FieldAttr.from_attrs fa = .error e) ∧
    ∀ (attr : StructAttr) (name : String) (inner : Ty) (gs : List String),
      ∃ e, newtype attr name inner fa gs = .error e := by
  have hfa : FieldAttr.from_attrs fa =
      .error "`type` is not compatible with `inline`" := by
    simp [FieldAttr.from_attrs, hov, hin]
  refine ⟨⟨_, hfa⟩, fun attr name inner gs => ?_⟩
  by_cases h1 : attr.rename_all.isSome
  · exact ⟨"`rename_all` is not applicable to newtype structs",
      by simp [newtype, h1]⟩
  · by_cases h2 : attr.tag.isSome
    · exact ⟨"`tag` is not applicable to newtype structs",
        by simp [newtype, h1, h2]⟩
    · exact ⟨"`type` is not compatible with `inline`",
        by simp [newtype, h1, h2, hfa]⟩

/-- Witness for C5: a field with `type = "string"` and `inline` is
rejected. -/
theorem type_override_with_inline_rejected_witness :
    (∃ e, FieldAttr.from_attrs
      ⟨none, some "string", none, true, false, false, false⟩ = .error e) ∧
    ∃ e, newtype ⟨none, none, "", false, none⟩ "W" (.prim "number")
      ⟨none, some "string", none, true, false, false, false⟩ [] =
      .error e := by
  have h := type_override_with_inline_rejected
    ⟨none, some "string", none, true, false, false, false⟩ rfl rfl
  exact ⟨h.1, h.2 ⟨none, none, "", false, none⟩ "W" (.prim "number") []⟩

/-- Counterexample for C6 as stated: a sole field marked both `skip`
and `optional` does not fail — the `skip` arm of the match fires first
and the renderer returns the unit rendering successfully. -/
theorem newtype_skip_optional_not_error :
    newtype ⟨none, none, "", false, none⟩ "W" (.prim "number")
      ⟨none, none, none, false, true, true, false⟩ [] =
      .ok (unit.null ⟨none, none, "", false, none⟩ "W") := rfl

/-- C6 (amended): setting `rename_all` or `tag` on the container, or
`rename` on the sole field, always fails with a description-level
error; setting `optional` or `flatten` fails likewise provided the
field is not also marked `skip` (a skipped field degrades to the unit
rendering before `optional` and `flatten` are checked). -/
theorem newtype_illegal_attr_errors (attr : StructAttr) (name : String)
    (inner : Ty) (fa : FieldAttr) (gs : List String) :
    (attr.rename_all.isSome = true →
      ∃ e, newtype attr name inner fa gs = .error e) ∧
    (attr.tag.isSome = true →
      ∃ e, newtype attr name inner fa gs = .error e) ∧
    (fa.rename.isSome = true →
      ∃ e, newtype attr name inner fa gs = .error e) ∧
    (fa.optional = true → fa.skip = false →
      ∃ e, newtype attr name inner fa gs = .error e) ∧
    (fa.flatten = true → fa.skip = false →
      ∃ e, newtype attr name inner fa gs = .error e) := by
  by_cases h1 : attr.rename_all.isSome
  · have he : ∃ e, newtype attr name inner fa gs = .error e :=
      ⟨"`rename_all` is not applicable to newtype structs",
        by simp [newtype, h1]⟩
    exact ⟨fun _ => he, fun _ => he, fun _ => he, fun _ _ => he,
      fun _ _ => he⟩
  by_cases h2 : attr.tag.isSome
  · have he : ∃ e, newtype attr name inner fa gs = .error e :=
      ⟨"`tag` is not applicable to newtype structs",
        by simp [newtype, h1, h2]⟩
    exact ⟨fun h => absurd h h1, fun _ => he, fun _ => he, fun _ _ => he,
      fun _ _ => he⟩
  cases hfa : FieldAttr.from_attrs fa with
  | error e =>
      have he : ∃ e, newtype attr name inner fa gs = .error e :=
        ⟨e, by simp [newtype, h1, h2, hfa]⟩
      exact ⟨fun h => absurd h h1, fun h => absurd h h2, fun _ => he,
        fun _ _ => he, fun _ _ => he⟩
  | ok fa' =>
      have hfa' : fa' = fa := from_attrs_ok hfa
      rw [hfa'] at hfa
      by_cases h3 : fa.rename.isSome
      · have he : ∃ e, newtype attr name inner fa gs = .error e :=
          ⟨"`rename` is not applicable to newtype fields",
            by simp [newtype, h1, h2, hfa, h3]⟩
        exact ⟨fun h => absurd h h1, fun h => absurd h h2, fun _ => he,
          fun _ _ => he, fun _ _ => he⟩
      · refine ⟨fun h => absurd h h1, fun h => absurd h h2,
          fun h => absurd h h3, ?_, ?_⟩
        · intro ho hs
          exact ⟨"`optional` is not applicable to newtype fields",
            by simp [newtype, h1, h2, hfa, h3, hs, ho]⟩
        · intro hf hs
          by_cases h5 : fa.optional
          · exact ⟨"`optional` is not applicable to newtype fields",
              by simp [newtype, h1, h2, hfa, h3, hs, h5]⟩
          · exact ⟨"`flatten` is not applicable to newtype fields",
              by simp [newtype, h1, h2, hfa, h3, hs, h5, hf]⟩

/-- Witness for C6 (amended), exercising each clause at a concrete
input. -/
theorem newtype_illegal_attr_errors_witness :
    (∃ e, newtype ⟨some "camelCase", none, "", false, none⟩ "W"
      (.prim "number") ⟨none, none, none, false, false, false, false⟩ [] =
      .error e) ∧
    (∃ e, newtype ⟨none, some "t", "", false, none⟩ "W" (.prim "number")
      ⟨none, none, none, false, false, false, false⟩ [] = .error e) ∧
    (∃ e, newtype ⟨none, none, "", false, none⟩ "W" (.prim "number")
      ⟨none, none, some "x", false, false, false, false⟩ [] = .error e) ∧
    (∃ e, newtype ⟨none, none, "", false, none⟩ "W" (.prim "number")
      ⟨none, none, none, false, false, true, false⟩ [] = .error e) ∧
    (∃ e, newtype ⟨none, none, "", false, none⟩ "W" (.prim "number")
      ⟨none, none, none, false, false, false, true⟩ [] = .error e) :=
  ⟨(newtype_illegal_attr_errors ⟨some "camelCase", none, "", false, none⟩
      "W" (.prim "number") ⟨none, none, none, false, false, false, false⟩
      []).1 rfl,
   (newtype_illegal_attr_errors ⟨none, some "t", "", false, none⟩ "W"
      (.prim "number") ⟨none, none, none, false, false, false, false⟩
      []).2.1 rfl,
   (newtype_illegal_attr_errors ⟨none, none, "", false, none⟩ "W"
      (.prim "number") ⟨none, none, some "x", false, false, false, false⟩
      []).2.2.1 rfl,
   (newtype_illegal_attr_errors ⟨none, none, "", false, none⟩ "W"
      (.prim "number") ⟨none, none, none, false, false, true, false⟩
      []).2.2.2.1 rfl rfl,
   (newtype_illegal_attr_errors ⟨none, none, "", false, none⟩ "W"
      (.prim "number") ⟨none, none, none, false, false, false, true⟩
      []).2.2.2.2 rfl rfl⟩

/-- C7: a newtype struct whose sole field is marked `skip` degrades to
the unit case: the null-equivalent declaration, with no
dependencies. -/
theorem newtype_skip_degrades_unit (attr : StructAttr) (name : String)
    (inner : Ty) (fa : FieldAttr) (gs : List String)
    (hra : attr.rename_all = none) (htag : attr.tag = none)
    (hrn : fa.rename = none) (hskip : fa.skip = true)
    (hv1 : (fa.type_override.isSome && fa.inline) = false)
    (hv2 : (fa.type_override.isSome && fa.flatten) = false) :
    newtype attr name inner fa gs = .ok (unit.null attr name) ∧
    (unit.null attr name).decl = some ("type " ++ name ++ " = null;") ∧
    (unit.null attr name).dependencies = [] := by
  refine ⟨?_, rfl, rfl⟩
  simp [newtype, FieldAttr.from_attrs, hra, htag, hrn, hskip, hv1, hv2]

/-- Witness for C7: a concrete newtype whose field is skipped. -/
theorem newtype_skip_degrades_unit_witness :
    newtype ⟨none, none, "", false, none⟩ "W" (.prim "number")
      ⟨none, none, none, false, true, false, false⟩ [] =
      .ok (unit.null ⟨none, none, "", false, none⟩ "W") ∧
    (unit.null ⟨none, none, "", false, none⟩ "W").decl =
      some ("type " ++ "W" ++ " = null;") ∧
    (unit.null ⟨none, none, "", false, none⟩ "W").dependencies = [] :=
  newtype_skip_degrades_unit ⟨none, none, "", false, none⟩ "W"
    (.prim "number") ⟨none, none, none, false, true, false, false⟩ []
    rfl rfl rfl rfl rfl rfl

/-- C8: every successful newtype rendering has declaration text of the
form `type <Name><GenericParams> = <InlineBody>;` where the body is the
inline text; concretely, a newtype `Wrapper(i32)` yields the
declaration `"type Wrapper = number;"` and zero runtime
dependencies. -/
theorem newtype_decl_shape (attr : StructAttr) (name : String)
    (inner : Ty) (fa : FieldAttr) (gs : List String) (ts : DerivedTS)
    (h : newtype attr name inner fa gs = .ok ts) :
    (∃ g, ts.decl = ts.inline.map
        (fun b => "type " ++ name ++ g ++ " = " ++ b ++ ";")) ∧
    newtype ⟨none, none, "", false, none⟩ "Wrapper" (.prim "number")
      ⟨none, none, none, false, false, false, false⟩ [] =
      .ok { decl := some "type Wrapper = number;"
            inline := some "number"
            inline_flattened := none
            name := "Wrapper"
            docs := ""
            dependencies := [.push (.prim "number")]
            «export» := false
            export_to := none } ∧
    runtime_dependencies [DepInstr.push (Ty.prim "number")] = [] := by
  refine ⟨?_, by rfl, by simp [runtime_dependencies, DepInstr.elaborate, depsVisit]⟩
  unfold newtype at h
  split at h
  · simp at h
  · split at h
    · simp at h
    · split at h
      · simp at h
      · split at h
        · simp at h
        · split at h
          · -- skip: the unit rendering
            have hts : ts = unit.null attr name := by simpa using h.symm
            subst hts
            refine ⟨"", ?_⟩
            show some ("type " ++ name ++ " = null;") =
              (some "null").map
                (fun b => "type " ++ name ++ "" ++ " = " ++ b ++ ";")
            simp only [Option.map_some, Option.some.injEq,
              String.append_empty, String.append_assoc]
            rfl
          · split at h
            · simp at h
            · split at h
              · simp at h
              · split at h
                · simp at h
                · have hts := h.symm
                  simp only [Except.ok.injEq] at hts
                  subst hts
                  exact ⟨format_generics gs, rfl⟩

/-- Witness for C8 at the concrete `Wrapper(i32)` input. -/
theorem newtype_decl_shape_witness :
    ∃ g, (some "type Wrapper = number;" : Option String) =
      (some "number" : Option String).map
        (fun b => "type " ++ "Wrapper" ++ g ++ " = " ++ b ++ ";") := by
  have h := newtype_decl_shape ⟨none, none, "", false, none⟩ "Wrapper"
    (.prim "number") ⟨none, none, none, false, false, false, false⟩ []
    { decl := some "type Wrapper = number;"
      inline := some "number"
      inline_flattened := none
      name := "Wrapper"
      docs := ""
      dependencies := [.push (.prim "number")]
      «export» := false
      export_to := none }
    (by rfl)
  exact h.1

end TsRs
